import Mathlib

/-!
Verification of the ios-bot automation core (Medusa repository) against its
natural-language specification.

The development shallowly embeds the Python sources:
* `src/ios-bot/mcp_client.py` — the MCP stdio protocol client
  (`MCPClient._read_loop`, `MCPClient._call`);
* `src/ios-bot/xcuitest.py` — the element model (`_parse_elements`,
  `_normalize_frame`, `find_element`) and the script engine (`run_script`).

External I/O (the subprocess pipe, the simulator, the file system) is
abstracted as explicit oracle parameters; everything the Python code itself
computes is translated directly.
-/

namespace Medusa

/-! ## Protocol client: messages and the background reader

A decoded inbound JSON value.  `json.loads` can yield any JSON value; the
client's matching loop only works when the value is an object, so the model
distinguishes objects (with the fields `_call` inspects: `id`, `error`,
`result`) from any other successfully-decoded JSON value.  Payloads are left
opaque as strings; `result = none` models an absent `result` key (for which
`msg.get("result", {})` substitutes the empty-dict default).
-/

inductive Msg where
  | obj (id : Option Nat) (error : Option String) (result : Option String)
  | nonObj
deriving DecidableEq, Repr

/-- Python's `str.strip()` on the character list: drop leading and trailing
whitespace. -/
def stripChars (l : List Char) : List Char :=
  ((l.dropWhile Char.isWhitespace).reverse.dropWhile Char.isWhitespace).reverse

/-- Python's `line.strip()`. -/
def pyStrip (s : String) : String :=
  ⟨stripChars s.data⟩

/-- Embedding of `MCPClient._read_loop` (mcp_client.py lines 73-83) applied
to the finite list of lines received from the server.  `parse` is the oracle
for `json.loads`: `none` means the line raised `JSONDecodeError`.  The result
is the sequence of messages put into `self._response_queue`, in order.
A line that strips to the empty string is skipped (`if not line: continue`),
a line that fails to parse is dropped by the
`except json.JSONDecodeError: pass` handler, and every other line
contributes its decoded message. -/
def read_loop (parse : String → Option Msg) : List String → List Msg
  | [] => []
  | line :: rest =>
    let l := pyStrip line
    if l = "" then read_loop parse rest
    else
      match parse l with
      | some m => m :: read_loop parse rest
      | none => read_loop parse rest

/-! ## Protocol client: the blocking call

`MCPClient._call` (mcp_client.py lines 92-120) drains the response queue
until it finds a message whose `id` equals the request id, re-queuing every
non-matching message it pulled off.  Time is modelled by the finite list of
messages that arrive within the timeout window: if that list is exhausted
without a match the deadline passes and `TimeoutError` is raised. -/

inductive CallOutcome where
  /-- the `return msg.get("result", {})` path: the matched response's result
  payload (`none` = absent key, defaulted to the empty object). -/
  | ok (result : Option String)
  /-- the `raise RuntimeError(f"MCP error: ...")` path, carrying the error
  payload. -/
  | remoteError (details : String)
  /-- the `raise TimeoutError(f"No response for {method} (id={req_id})
  within {timeout}s")` path, carrying method, id and timeout. -/
  | timeout (method : String) (id : Nat) (timeoutSecs : Nat)
  /-- an uncaught `AttributeError` from `msg.get` when the dequeued message
  is not a dict (the `try` only catches `queue.Empty`). -/
  | attrError
deriving DecidableEq, Repr

/-- Embedding of the drain loop of `MCPClient._call` (lines 98-120).
`queue` is the remaining content of `_response_queue` (messages that arrive
within the timeout window, in arrival order); `pending` is the local
`pending` list of non-matching messages pulled off so far.  Returns the
call's outcome together with the queue contents afterwards: on a match the
pending messages are re-`put` behind whatever was never dequeued, on timeout
all drained messages are re-`put`, and on the `AttributeError` crash the
local `pending` list is lost. -/
def callLoop (method : String) (reqId : Nat) (timeoutSecs : Nat) :
    List Msg → List Msg → CallOutcome × List Msg
  | [], pending => (.timeout method reqId timeoutSecs, pending)
  | .nonObj :: rest, _ => (.attrError, rest)
  | .obj id err res :: rest, pending =>
    if id = some reqId then
      match err with
      | some e => (.remoteError e, rest ++ pending)
      | none => (.ok res, rest ++ pending)
    else
      callLoop method reqId timeoutSecs rest (pending ++ [.obj id err res])

/-- Embedding of `MCPClient._call` after the request has been written: drain
the queue with an initially empty `pending` list. -/
def call (method : String) (reqId : Nat) (timeoutSecs : Nat)
    (queue : List Msg) : CallOutcome × List Msg :=
  callLoop method reqId timeoutSecs queue []

/-- A message that a call waiting on `reqId` pulls off and re-queues: an
object whose `id` field differs from the request id. -/
def nonMatching (reqId : Nat) (m : Msg) : Prop :=
  ∃ id err res, m = Msg.obj id err res ∧ id ≠ some reqId

/-! ## Element model (xcuitest.py)

Geometry values are modelled as integers; the `float(...)` coercions in
`_normalize_frame` only convert, they do not compute. -/

/-- A normalized frame: the `{x, y, width, height}` dict produced by
`_normalize_frame`. -/
structure Frame where
  x : Int
  y : Int
  width : Int
  height : Int
deriving DecidableEq, Repr

/-- Embedding of the `UIElement` dataclass (xcuitest.py lines 30-45). -/
structure UIElement where
  label : String
  identifier : String
  element_type : String
  frame : Frame
  value : String
deriving DecidableEq, Repr

/-- The `origin` sub-dict of a nested-shape frame; `none` fields model
absent keys (defaulted to `0` by `origin.get("x", 0)`). -/
structure PtDict where
  px : Option Int
  py : Option Int
deriving DecidableEq, Repr

/-- The `size` sub-dict of a nested-shape frame. -/
structure SzDict where
  sw : Option Int
  sh : Option Int
deriving DecidableEq, Repr

/-- A raw frame dict as found under a node's `frame` or `rect` key: it may
carry flat `x`/`y`/`width`/`height` keys, nested `origin`/`size` keys, any
mix, or nothing at all.  `none` models an absent key. -/
structure FrameDict where
  fx : Option Int
  fy : Option Int
  fwidth : Option Int
  fheight : Option Int
  forigin : Option PtDict
  fsize : Option SzDict
deriving DecidableEq, Repr

/-- Python truthiness of a frame dict: a dict is falsy iff it has no keys. -/
def FrameDict.isEmptyDict (f : FrameDict) : Bool :=
  f.fx.isNone && f.fy.isNone && f.fwidth.isNone && f.fheight.isNone &&
    f.forigin.isNone && f.fsize.isNone

/-- Embedding of `_normalize_frame` (xcuitest.py lines 154-171): if the dict
has an `x` key, read the flat keys (absent ones default to 0); otherwise
read `origin`/`size` (absent sub-dicts behave as empty, all components
defaulting to 0). -/
def _normalize_frame (f : FrameDict) : Frame :=
  if f.fx.isSome then
    { x := f.fx.getD 0, y := f.fy.getD 0,
      width := f.fwidth.getD 0, height := f.fheight.getD 0 }
  else
    let o := f.forigin.getD { px := none, py := none }
    let s := f.fsize.getD { sw := none, sh := none }
    { x := o.px.getD 0, y := o.py.getD 0,
      width := s.sw.getD 0, height := s.sh.getD 0 }

/-- Python `a.get(k) or b.get(k2) or dflt` over two optional string keys:
the first present, non-empty (truthy) value, else the default. -/
def firstTruthy (a b : Option String) (dflt : String) : String :=
  match a with
  | some s => if s ≠ "" then s else
      match b with
      | some t => if t ≠ "" then t else dflt
      | none => dflt
  | none =>
      match b with
      | some t => if t ≠ "" then t else dflt
      | none => dflt

/-- Keep a frame-dict option only when it is present and Python-truthy
(non-empty); models the `data.get("frame") or data.get("rect")` chain
followed by `if frame:`. -/
def truthyFrame : Option FrameDict → Option FrameDict
  | some f => if f.isEmptyDict then none else some f
  | none => none

/-- The accessibility-tree values `_parse_elements` descends: JSON arrays,
JSON objects (with the keys the parser reads: `frame`, `rect`, the label /
identifier / type synonym pairs, `value`, and the three child keys), and
any other JSON value.  `none` models an absent key. -/
inductive JTree where
  | arr (items : List JTree)
  | obj (fr rc : Option FrameDict)
        (lb alb idf aidf : Option String)
        (et tk vl : Option String)
        (ch el sub : Option JTree)
  | other

/-- The element a single object node contributes (the body of the
`if frame:` block, xcuitest.py lines 132-145): present iff the node has a
truthy frame and a truthy label or identifier. -/
def nodeElement (fr rc : Option FrameDict) (lb alb idf aidf et tk vl : Option String) :
    List UIElement :=
  match truthyFrame fr <|> truthyFrame rc with
  | some f =>
    let label := firstTruthy lb alb ""
    let identifier := firstTruthy idf aidf ""
    if label ≠ "" ∨ identifier ≠ "" then
      [{ label := label, identifier := identifier,
         element_type := firstTruthy et tk "Unknown",
         frame := _normalize_frame f,
         value := firstTruthy vl none "" }]
    else []
  | none => []

mutual

/-- Embedding of `_parse_elements` (xcuitest.py lines 122-151): lists are
walked in order, an object node contributes its own element (if any) before
its children, and the child keys are visited in the source's order
`children`, `elements`, `subtree`. -/
def _parse_elements : JTree → List UIElement
  | .arr items => parseListTrees items
  | .obj fr rc lb alb idf aidf et tk vl ch el sub =>
    nodeElement fr rc lb alb idf aidf et tk vl
      ++ parseOptTree ch ++ parseOptTree el ++ parseOptTree sub
  | .other => []

/-- The `for item in data: _parse_elements(item, elements)` loop. -/
def parseListTrees : List JTree → List UIElement
  | [] => []
  | t :: ts => _parse_elements t ++ parseListTrees ts

/-- The `if key in data: _parse_elements(data[key], elements)` step. -/
def parseOptTree : Option JTree → List UIElement
  | some t => _parse_elements t
  | none => []

end

mutual

/-- Modelled from the spec: the depth-first traversal order of the tree —
every object node of the tree, each node listed before its descendants,
children visited in the `children`, `elements`, `subtree` key order. -/
def dfsNodes : JTree → List JTree
  | .arr items => dfsList items
  | .obj fr rc lb alb idf aidf et tk vl ch el sub =>
    JTree.obj fr rc lb alb idf aidf et tk vl ch el sub
      :: (dfsOpt ch ++ dfsOpt el ++ dfsOpt sub)
  | .other => []

/-- Depth-first traversal of the items of an array node, in order. -/
def dfsList : List JTree → List JTree
  | [] => []
  | t :: ts => dfsNodes t ++ dfsList ts

/-- Depth-first traversal under an optional child key. -/
def dfsOpt : Option JTree → List JTree
  | some t => dfsNodes t
  | none => []

end

/-- Modelled from the spec: the element an individual node yields.  Nodes
lacking a (truthy) frame are skipped, nodes lacking both a label and an
identifier are skipped, and an included node's frame is normalized to flat
x/y/width/height fields. -/
def elemOf : JTree → Option UIElement
  | .obj fr rc lb alb idf aidf et tk vl _ _ _ =>
    match truthyFrame fr <|> truthyFrame rc with
    | none => none
    | some f =>
      let label := firstTruthy lb alb ""
      let identifier := firstTruthy idf aidf ""
      if label = "" ∧ identifier = "" then none
      else
        some { label := label, identifier := identifier,
               element_type := firstTruthy et tk "Unknown",
               frame := _normalize_frame f,
               value := firstTruthy vl none "" }
  | _ => none

/-! ## Element lookup (`find_element`, xcuitest.py lines 174-204) -/

/-- Python truthiness of an optional-string argument: `if label:` treats
both `None` and the empty string as "criterion not provided". -/
def pyTruthy (o : Option String) : Bool :=
  o.getD "" ≠ ""

/-- Decide whether `needle` occurs as a prefix of `hay` (character lists);
models Python's string prefix test used to implement containment. -/
def firstChars : List Char → List Char → Bool
  | [], _ => true
  | _ :: _, [] => false
  | a :: as, b :: bs => a = b && firstChars as bs

/-- Decide whether `needle` occurs as a contiguous substring of `hay`;
models Python's `needle in hay` for strings. -/
def charsContain (needle hay : List Char) : Bool :=
  match hay with
  | [] => firstChars needle []
  | _ :: rest => firstChars needle hay || charsContain needle rest

/-- Python's `s.lower()` (ASCII model): lower-case every character. -/
def pyLower (s : String) : String :=
  ⟨s.data.map Char.toLower⟩

/-- Case-insensitive substring containment,
`needle.lower() in hay.lower()`. -/
def lowerContains (hay needle : String) : Bool :=
  charsContain (pyLower needle).data (pyLower hay).data

/-- Embedding of `find_element` (xcuitest.py lines 174-204), applied to the
element list the screen yields: scan in order; a provided (truthy) label
criterion skips the element when the fuzzy containment (resp. exact
equality) test fails, a provided identifier skips on inequality, a provided
element type skips when the lower-cased types differ; the first element not
skipped is returned. -/
def find_element (label identifier element_type : Option String) (fuzzy : Bool) :
    List UIElement → Option UIElement
  | [] => none
  | e :: rest =>
    if pyTruthy label &&
        (if fuzzy then !(lowerContains e.label (label.getD ""))
         else !(e.label == label.getD "")) then
      find_element label identifier element_type fuzzy rest
    else if pyTruthy identifier && !(e.identifier == identifier.getD "") then
      find_element label identifier element_type fuzzy rest
    else if pyTruthy element_type &&
        !(pyLower e.element_type == pyLower (element_type.getD "")) then
      find_element label identifier element_type fuzzy rest
    else
      some e

/-- Modelled from the spec (claim wording): an element matches when it
satisfies every provided predicate — label by case-insensitive substring
containment when fuzzy, exact case-sensitive equality otherwise; identifier
by exact equality; element type by exact equality. -/
def specMatchesExactType (label identifier element_type : Option String)
    (fuzzy : Bool) (e : UIElement) : Bool :=
  (if pyTruthy label then
    (if fuzzy then lowerContains e.label (label.getD "")
     else e.label == label.getD "")
   else true) &&
  (if pyTruthy identifier then e.identifier == identifier.getD "" else true) &&
  (if pyTruthy element_type then e.element_type == element_type.getD "" else true)

/-- Modelled from the spec (claim wording): lookup as the first element of
the list satisfying all provided predicates, with exact element-type
matching. -/
def findSpecExactType (label identifier element_type : Option String)
    (fuzzy : Bool) (elements : List UIElement) : Option UIElement :=
  elements.find? (specMatchesExactType label identifier element_type fuzzy)

/-- Amended matcher: like `specMatchesExactType` but the element-type
predicate is case-insensitive exact equality. -/
def specMatchesCIType (label identifier element_type : Option String)
    (fuzzy : Bool) (e : UIElement) : Bool :=
  (if pyTruthy label then
    (if fuzzy then lowerContains e.label (label.getD "")
     else e.label == label.getD "")
   else true) &&
  (if pyTruthy identifier then e.identifier == identifier.getD "" else true) &&
  (if pyTruthy element_type then
    pyLower e.element_type == pyLower (element_type.getD "")
   else true)

/-! ## Script engine (`run_script`, xcuitest.py lines 336-448) -/

/-- Embedding of the `StepResult` dataclass (xcuitest.py lines 48-55). -/
structure StepResult where
  action : String
  success : Bool
  screenshot_path : Option String
  error : Option String
  detail : String
deriving DecidableEq, Repr

/-- A script step, as far as the engine's control flow reads it: the value
of `step.get("action", "unknown")`.  The action-specific fields are only
read inside the dispatched `try` body, which the oracle below abstracts. -/
structure Step where
  action : String
deriving DecidableEq, Repr

/-- The engine's environment: the outcomes of all external interactions of
one run.  `body i` is the outcome of the `try` body for step `i` — `.ok`
with the detail string and the screenshot path the body itself set (some
path for a successful `screenshot` action, none otherwise), or `.error`
with `str(exc)` of the raised exception.  `failShot i` is the outcome of
the best-effort `FAIL_` diagnostic screenshot (`none` = capture raised, the
`except Exception: pass` swallows it).  `everyShot i` is the outcome of the
optional per-step bonus screenshot, likewise. -/
structure ScriptEnv where
  body : Nat → Except String (String × Option String)
  failShot : Nat → Option String
  everyShot : Nat → Option String

/-- Embedding of one iteration of the `for i, step in enumerate(steps)`
loop body (xcuitest.py lines 360-440): build the `StepResult` for step `i`.
On success, `success` is set to true and, when configured and the action is
not itself a screenshot, a bonus screenshot is attempted whose failure
leaves the path as the body set it.  On a raised failure, `success` is
false, `error` records the original message, and the best-effort diagnostic
screenshot sets the path only if it itself succeeds. -/
def runStep (env : ScriptEnv) (everyStep : Bool) (i : Nat) (s : Step) : StepResult :=
  match env.body i with
  | .ok (d, shot) =>
    { action := toString (i + 1) ++ ". " ++ s.action
      success := true
      screenshot_path :=
        if everyStep ∧ s.action ≠ "screenshot" then
          match env.everyShot i with
          | some p => some p
          | none => shot
        else shot
      error := none
      detail := d }
  | .error e =>
    { action := toString (i + 1) ++ ". " ++ s.action
      success := false
      screenshot_path := env.failShot i
      error := some e
      detail := "" }

/-- Embedding of the `run_script` loop from step index `i` on: append each
step's result and stop as soon as a step result is unsuccessful
(`if not step_result.success: break`, xcuitest.py lines 442-446). -/
def run_script_from (env : ScriptEnv) (everyStep : Bool) (i : Nat) :
    List Step → List StepResult
  | [] => []
  | s :: rest =>
    let sr := runStep env everyStep i s
    if sr.success then sr :: run_script_from env everyStep (i + 1) rest
    else [sr]

/-- Embedding of `run_script`: the ordered `StepResult` trace of one run of
the script engine over `steps` under environment `env`. -/
def run_script (env : ScriptEnv) (everyStep : Bool) (steps : List Step) :
    List StepResult :=
  run_script_from env everyStep 0 steps

/-- Embedding of the `ScriptResult` dataclass (xcuitest.py lines 58-70). -/
structure ScriptResult where
  script_name : String
  steps : List StepResult

/-- The `passed` property: true iff every step result succeeded. -/
def ScriptResult.passed (r : ScriptResult) : Bool :=
  r.steps.all (fun s => s.success)

/-! ## Protocol client lemmas -/

/-- Draining past a run of non-matching object messages moves them, in
order, onto the pending list. -/
lemma callLoop_skip_nonMatching (method : String) (reqId t : Nat) :
    ∀ (q1 rest pending : List Msg), (∀ m ∈ q1, nonMatching reqId m) →
      callLoop method reqId t (q1 ++ rest) pending
        = callLoop method reqId t rest (pending ++ q1) := by
  intro q1
  induction q1 with
  | nil => intro rest pending _; simp
  | cons m q1 ih =>
    intro rest pending hq
    obtain ⟨id, err, res, rfl, hid⟩ := hq m (List.mem_cons_self m q1)
    have hrec := ih rest (pending ++ [Msg.obj id err res])
      (fun x hx => hq x (List.mem_cons_of_mem _ hx))
    simp only [List.cons_append, callLoop, if_neg hid]
    simpa [List.append_assoc] using hrec

/-- An `ok` outcome of the drain loop can only come from a message in the
queue bearing the request id and no error payload. -/
lemma callLoop_ok_mem (method : String) (reqId t : Nat) :
    ∀ (q pending : List Msg) (res : Option String),
      (callLoop method reqId t q pending).1 = CallOutcome.ok res →
      Msg.obj (some reqId) none res ∈ q := by
  intro q
  induction q with
  | nil => intro pending res h; simp [callLoop] at h
  | cons m q ih =>
    intro pending res h
    cases m with
    | nonObj => simp [callLoop] at h
    | obj id err r =>
      by_cases hid : id = some reqId
      · subst hid
        cases err with
        | some e => simp [callLoop] at h
        | none =>
          simp only [callLoop, if_pos rfl] at h
          cases h
          exact List.mem_cons_self _ _
      · simp only [callLoop, if_neg hid] at h
        exact List.mem_cons_of_mem _ (ih _ res h)

/-!
### Claim C1

Outcomes of `MCPClient._call`.
-/

/-- Claim C1: a call whose matching response (the first message bearing its
correlation id) carries an error payload fails with the remote-error
condition carrying the details; a call whose matching response has no error
payload returns its result payload; and a call for which only non-matching
messages arrive within the timeout window fails with the timeout condition
carrying the method, the id and the timeout. -/
theorem call_outcome_spec (method : String) (reqId timeoutSecs : Nat)
    (q1 q2 : List Msg) (e : String) (res : Option String)
    (hq1 : ∀ m ∈ q1, nonMatching reqId m) :
    (call method reqId timeoutSecs
        (q1 ++ Msg.obj (some reqId) (some e) res :: q2)).1
      = CallOutcome.remoteError e ∧
    (call method reqId timeoutSecs
        (q1 ++ Msg.obj (some reqId) none res :: q2)).1
      = CallOutcome.ok res ∧
    (call method reqId timeoutSecs q1).1
      = CallOutcome.timeout method reqId timeoutSecs := by
  refine ⟨?_, ?_, ?_⟩
  · rw [call, callLoop_skip_nonMatching method reqId timeoutSecs q1 _ [] hq1]
    simp [callLoop]
  · rw [call, callLoop_skip_nonMatching method reqId timeoutSecs q1 _ [] hq1]
    simp [callLoop]
  · rw [call, show q1 = q1 ++ [] by simp,
      callLoop_skip_nonMatching method reqId timeoutSecs q1 [] [] (by simpa using hq1)]
    rfl

/-- Witness for C1: a concrete queue holding one stray response (id 7)
ahead of the matching one (id 1). -/
theorem call_outcome_spec_witness :
    (call "tools/call" 1 15
        ([Msg.obj (some 7) none none] ++ Msg.obj (some 1) (some "boom") none :: [])).1
      = CallOutcome.remoteError "boom" ∧
    (call "tools/call" 1 15
        ([Msg.obj (some 7) none none] ++ Msg.obj (some 1) none (some "r") :: [])).1
      = CallOutcome.ok (some "r") ∧
    (call "tools/call" 1 15 [Msg.obj (some 7) none none]).1
      = CallOutcome.timeout "tools/call" 1 15 := by
  have h1 := call_outcome_spec "tools/call" 1 15 [Msg.obj (some 7) none none] []
    "boom" none (by
      intro m hm
      simp only [List.mem_singleton] at hm
      exact ⟨some 7, none, none, hm, by decide⟩)
  have h2 := call_outcome_spec "tools/call" 1 15 [Msg.obj (some 7) none none] []
    "boom" (some "r") (by
      intro m hm
      simp only [List.mem_singleton] at hm
      exact ⟨some 7, none, none, hm, by decide⟩)
  exact ⟨h1.1, h2.2.1, h1.2.2⟩

/-!
### Claim C2

Correlation: no cross-assignment between concurrent calls.
-/

/-- Claim C2: with two outstanding calls of distinct correlation ids whose
responses arrive in either order (reverse order first below, then request
order), each call resolves to exactly its own response — a non-matching
response is skipped and re-queued for the other waiter — and in general a
call can only ever return the result of a message bearing its own
correlation id. -/
theorem call_no_cross_assignment (m1 m2 : String) (r1 r2 t1 t2 : Nat)
    (res1 res2 : Option String) (hne : r1 ≠ r2) :
    call m1 r1 t1 [Msg.obj (some r2) none res2, Msg.obj (some r1) none res1]
      = (CallOutcome.ok res1, [Msg.obj (some r2) none res2]) ∧
    call m2 r2 t2 [Msg.obj (some r2) none res2]
      = (CallOutcome.ok res2, []) ∧
    call m1 r1 t1 [Msg.obj (some r1) none res1, Msg.obj (some r2) none res2]
      = (CallOutcome.ok res1, [Msg.obj (some r2) none res2]) ∧
    (∀ (q : List Msg) (res : Option String),
      (call m1 r1 t1 q).1 = CallOutcome.ok res → Msg.obj (some r1) none res ∈ q) := by
  have hskip : some r2 ≠ some r1 := by
    intro h
    exact hne (Option.some.injEq r2 r1 ▸ h).symm
  refine ⟨?_, ?_, ?_, ?_⟩
  · simp [call, callLoop, hskip]
  · simp [call, callLoop]
  · simp [call, callLoop]
  · intro q res h
    exact callLoop_ok_mem m1 r1 t1 q [] res h

/-- Witness for C2: ids 1 and 2, responses arriving in reverse order. -/
theorem call_no_cross_assignment_witness :
    call "a" 1 15 [Msg.obj (some 2) none (some "r2"), Msg.obj (some 1) none (some "r1")]
      = (CallOutcome.ok (some "r1"), [Msg.obj (some 2) none (some "r2")]) ∧
    call "b" 2 15 [Msg.obj (some 2) none (some "r2")]
      = (CallOutcome.ok (some "r2"), []) := by
  have h := call_no_cross_assignment "a" "b" 1 2 15 15 (some "r1") (some "r2")
    (by decide)
  exact ⟨h.1, h.2.1⟩

/-!
### Claim C7

The background reader drops undecodable lines.
-/

/-- Claim C7: a non-empty line that fails to decode as JSON is dropped by
the reader — nothing is enqueued for it, no exception escapes (the reader
is a total function), and the remaining lines are processed exactly as if
the bad line had not been received. -/
theorem read_loop_drops_bad_line (parse : String → Option Msg) (line : String)
    (rest : List String) (h1 : pyStrip line ≠ "") (h2 : parse (pyStrip line) = none) :
    read_loop parse (line :: rest) = read_loop parse rest := by
  simp [read_loop, h1, h2]

/-- Witness for C7: the literal line `not json` ahead of a decodable
line. -/
theorem read_loop_drops_bad_line_witness :
    read_loop (fun s => if s = "ok" then some (Msg.obj (some 1) none none) else none)
        ["not json", "ok"]
      = [Msg.obj (some 1) none none] := by
  rw [read_loop_drops_bad_line _ "not json" ["ok"] (by decide) (by decide)]
  decide

/-!
### Claim C10

Valid-JSON non-object messages poison the matching loop.
-/

/-- Claim C10: a line that decodes to a JSON value that is not an object is
enqueued by the reader as-is, and a call that dequeues it crashes with the
untyped attribute error (`msg.get` on a non-dict), rather than returning a
result, timing out, or raising a remote error. -/
theorem nonobject_message_crashes_call (parse : String → Option Msg)
    (line : String) (rest : List String) (method : String) (reqId t : Nat)
    (q : List Msg) (h1 : pyStrip line ≠ "") (h2 : parse (pyStrip line) = some Msg.nonObj) :
    read_loop parse (line :: rest) = Msg.nonObj :: read_loop parse rest ∧
    (call method reqId t (Msg.nonObj :: q)).1 = CallOutcome.attrError := by
  constructor
  · simp [read_loop, h1, h2]
  · rfl

/-- Witness for C10: the bare-number line `5` decoding to a non-object. -/
theorem nonobject_message_crashes_call_witness :
    read_loop (fun s => if s = "5" then some Msg.nonObj else none) ["5"]
      = [Msg.nonObj] ∧
    (call "tools/list" 3 15 [Msg.nonObj]).1 = CallOutcome.attrError := by
  have h := nonobject_message_crashes_call
    (fun s => if s = "5" then some Msg.nonObj else none) "5" [] "tools/list" 3 15 []
    (by decide) (by decide)
  exact ⟨by rw [h.1]; rfl, h.2⟩

/-! ## Script engine lemmas -/

/-- A step whose `try` body succeeds yields a successful result. -/
lemma runStep_success_of_ok (env : ScriptEnv) (everyStep : Bool) (i : Nat)
    (s : Step) (d : String × Option String) (h : env.body i = Except.ok d) :
    (runStep env everyStep i s).success = true := by
  simp [runStep, h]

/-- A step whose `try` body raises yields exactly the failed result the
`except` handler builds: the original error message and the best-effort
diagnostic screenshot path. -/
lemma runStep_of_error (env : ScriptEnv) (everyStep : Bool) (i : Nat)
    (s : Step) (e : String) (h : env.body i = Except.error e) :
    runStep env everyStep i s =
      { action := toString (i + 1) ++ ". " ++ s.action
        success := false
        screenshot_path := env.failShot i
        error := some e
        detail := "" } := by
  simp [runStep, h]

/-- The trace is never longer than the step list. -/
lemma run_script_from_length_le (env : ScriptEnv) (everyStep : Bool) :
    ∀ (steps : List Step) (i : Nat),
      (run_script_from env everyStep i steps).length ≤ steps.length := by
  intro steps
  induction steps with
  | nil => intro i; simp [run_script_from]
  | cons s rest ih =>
    intro i
    simp only [run_script_from]
    by_cases h : (runStep env everyStep i s).success
    · simpa [h] using Nat.succ_le_succ (ih (i + 1))
    · simp [h, Nat.succ_le_succ]

/-- Every trace entry except possibly the last is successful. -/
lemma run_script_from_all_but_last (env : ScriptEnv) (everyStep : Bool) :
    ∀ (steps : List Step) (i k : Nat) (sr : StepResult),
      (run_script_from env everyStep i steps).get? k = some sr →
      k + 1 < (run_script_from env everyStep i steps).length →
      sr.success = true := by
  intro steps
  induction steps with
  | nil => intro i k sr h _; simp [run_script_from] at h
  | cons s rest ih =>
    intro i k sr h hk
    simp only [run_script_from] at h hk
    by_cases hs : (runStep env everyStep i s).success
    · simp only [if_pos hs] at h hk
      cases k with
      | zero =>
        simp only [List.get?] at h
        cases h
        exact hs
      | succ k =>
        exact ih (i + 1) k sr h (by simpa using hk)
    · simp only [if_neg hs] at h hk
      rw [List.length_singleton] at hk
      omega

/-- Characterization of a run whose first `try`-body failure is at step
`j`: the trace is the successful prefix followed by exactly the failed
result of step `j`. -/
lemma run_script_from_first_fail (env : ScriptEnv) (everyStep : Bool) :
    ∀ (steps : List Step) (i j : Nat) (sj : Step) (e : String),
      steps.get? j = some sj →
      (∀ x, x < j → ∃ d, env.body (i + x) = Except.ok d) →
      env.body (i + j) = Except.error e →
      ∃ pre, run_script_from env everyStep i steps
          = pre ++ [runStep env everyStep (i + j) sj]
        ∧ pre.length = j ∧ ∀ sr ∈ pre, sr.success = true := by
  intro steps
  induction steps with
  | nil => intro i j sj e hj _ _; simp at hj
  | cons s rest ih =>
    intro i j sj e hj hpre hfail
    cases j with
    | zero =>
      have hsj : sj = s := by simpa [eq_comm] using hj
      have hfail0 : env.body i = Except.error e := by simpa using hfail
      have hfalse : (runStep env everyStep i s).success = false := by
        rw [runStep_of_error env everyStep i s e hfail0]
      refine ⟨[], ?_, rfl, by simp⟩
      simp [run_script_from, hsj, Nat.add_zero, hfalse]
    | succ j =>
      obtain ⟨d, hd⟩ := hpre 0 (Nat.succ_pos j)
      have hok : (runStep env everyStep i s).success = true :=
        runStep_success_of_ok env everyStep i s d (by simpa using hd)
      have harith : ∀ x : Nat, i + 1 + x = i + (x + 1) := by omega
      obtain ⟨pre, heq, hlen, hsucc⟩ := ih (i + 1) j sj e (by simpa using hj)
        (fun x hx => by
          rw [harith x]
          exact hpre (x + 1) (Nat.succ_lt_succ hx))
        (by rw [harith j]; exact hfail)
      refine ⟨runStep env everyStep i s :: pre, ?_, by simp [hlen], ?_⟩
      · simp only [run_script_from, if_pos hok, heq, harith j, List.cons_append]
      · intro sr hsr
        rcases List.mem_cons.mp hsr with h | h
        · subst h; exact hok
        · exact hsucc sr h

/-!
### Claim C3

The trace invariant of the script engine.
-/

/-- Claim C3: for every step list and every run of the engine, the ordered
`StepResult` trace has at most as many entries as the step list, and every
entry other than the last is successful — so no entry follows an entry with
`success = false`, and the first failed entry, if any, is the last. -/
theorem run_script_trace_invariant (env : ScriptEnv) (everyStep : Bool)
    (steps : List Step) :
    (run_script env everyStep steps).length ≤ steps.length ∧
    ∀ (k : Nat) (sr : StepResult),
      (run_script env everyStep steps).get? k = some sr →
      k + 1 < (run_script env everyStep steps).length →
      sr.success = true := by
  exact ⟨run_script_from_length_le env everyStep steps 0,
    fun k sr h hk => run_script_from_all_but_last env everyStep steps 0 k sr h hk⟩

/-- Witness for C3: a two-step script whose second step fails; the trace
has two entries and its non-final entry is successful. -/
theorem run_script_trace_invariant_witness :
    (run_script
        ⟨fun i => if i = 0 then Except.ok ("done", none) else Except.error "boom",
          fun _ => none, fun _ => none⟩
        false [{ action := "wait" }, { action := "tap_xy" }]).length ≤ 2 ∧
    (runStep
        ⟨fun i => if i = 0 then Except.ok ("done", none) else Except.error "boom",
          fun _ => none, fun _ => none⟩
        false 0 { action := "wait" }).success = true := by
  have h := run_script_trace_invariant
    ⟨fun i => if i = 0 then Except.ok ("done", none) else Except.error "boom",
      fun _ => none, fun _ => none⟩
    false [{ action := "wait" }, { action := "tap_xy" }]
  refine ⟨h.1, ?_⟩
  exact h.2 0 _ (by decide) (by decide)

/-!
### Claim C4

First failing step at position `k` (1-based): exactly `k` entries.
-/

/-- Claim C4: when the `try` body of step `j` (0-based; step `k = j + 1`
1-based) is the first to fail, raising an exception with message `e`, the
trace has exactly `j + 1` entries, and its entry at position `j` — the
last — is unsuccessful and carries the non-empty message `e`. -/
theorem run_script_first_failure (env : ScriptEnv) (everyStep : Bool)
    (steps : List Step) (j : Nat) (sj : Step) (e : String)
    (hj : steps.get? j = some sj)
    (hpre : ∀ x, x < j → ∃ d, env.body x = Except.ok d)
    (hfail : env.body j = Except.error e) (hne : e ≠ "") :
    (run_script env everyStep steps).length = j + 1 ∧
    ∃ sr, (run_script env everyStep steps).get? j = some sr ∧
      sr.success = false ∧ sr.error = some e ∧ sr.error ≠ some "" := by
  obtain ⟨pre, heq, hlen, _⟩ := run_script_from_first_fail env everyStep steps 0 j
    sj e hj (fun x hx => by simpa using hpre x hx) (by simpa using hfail)
  rw [run_script] at *
  constructor
  · simp [heq, hlen]
  · refine ⟨runStep env everyStep (0 + j) sj, ?_, ?_, ?_, ?_⟩
    · rw [heq, List.get?_append_right (by omega), hlen]
      simp
    · rw [runStep_of_error env everyStep (0 + j) sj e (by simpa using hfail)]
    · rw [runStep_of_error env everyStep (0 + j) sj e (by simpa using hfail)]
    · rw [runStep_of_error env everyStep (0 + j) sj e (by simpa using hfail)]
      simpa using hne

/-- Witness for C4: a three-step script failing at its second step (k = 2):
two entries, the second failed with the message of the raised exception. -/
theorem run_script_first_failure_witness :
    (run_script
        ⟨fun i => if i = 0 then Except.ok ("done", none)
          else Except.error "Element not found: 'Settings'",
          fun _ => none, fun _ => none⟩
        false [{ action := "wait" }, { action := "tap_label" },
          { action := "screenshot" }]).length = 2 ∧
    ∃ sr, (run_script
        ⟨fun i => if i = 0 then Except.ok ("done", none)
          else Except.error "Element not found: 'Settings'",
          fun _ => none, fun _ => none⟩
        false [{ action := "wait" }, { action := "tap_label" },
          { action := "screenshot" }]).get? 1 = some sr ∧
      sr.success = false ∧ sr.error = some "Element not found: 'Settings'" ∧
      sr.error ≠ some "" := by
  exact run_script_first_failure _ false _ 1 { action := "tap_label" }
    "Element not found: 'Settings'" (by decide)
    (fun x hx => ⟨("done", none), by
      obtain rfl : x = 0 := by omega
      rfl⟩)
    rfl (by decide)

/-!
### Claim C8

The diagnostic screenshot is best-effort and never masks the failure.
-/

/-- Claim C8: when step `j` raises with message `e`, the engine records a
failed result carrying `e` and terminates after it, whatever the
best-effort diagnostic screenshot does: for two environments identical in
their step bodies but with arbitrary (possibly failing) diagnostic
screenshot oracles, both runs terminate with `j + 1` entries whose last
entry is unsuccessful and carries the original message `e`; the screenshot
path merely records the diagnostic outcome (`none` when the capture itself
failed and was swallowed). -/
theorem run_script_diagnostic_best_effort (env env2 : ScriptEnv)
    (everyStep : Bool) (steps : List Step) (j : Nat) (sj : Step) (e : String)
    (hbody : env2.body = env.body)
    (hj : steps.get? j = some sj)
    (hpre : ∀ x, x < j → ∃ d, env.body x = Except.ok d)
    (hfail : env.body j = Except.error e) :
    ((run_script env everyStep steps).length = j + 1 ∧
      ∃ sr, (run_script env everyStep steps).get? j = some sr ∧
        sr.success = false ∧ sr.error = some e ∧
        sr.screenshot_path = env.failShot j) ∧
    ((run_script env2 everyStep steps).length = j + 1 ∧
      ∃ sr, (run_script env2 everyStep steps).get? j = some sr ∧
        sr.success = false ∧ sr.error = some e ∧
        sr.screenshot_path = env2.failShot j) := by
  have main : ∀ env3 : ScriptEnv, env3.body = env.body →
      (run_script env3 everyStep steps).length = j + 1 ∧
      ∃ sr, (run_script env3 everyStep steps).get? j = some sr ∧
        sr.success = false ∧ sr.error = some e ∧
        sr.screenshot_path = env3.failShot j := by
    intro env3 hb
    obtain ⟨pre, heq, hlen, _⟩ := run_script_from_first_fail env3 everyStep steps
      0 j sj e hj (fun x hx => by rw [hb]; simpa using hpre x hx)
      (by rw [hb]; simpa using hfail)
    rw [run_script] at *
    have hfail3 : env3.body j = Except.error e := by rw [hb]; exact hfail
    constructor
    · simp [heq, hlen]
    · refine ⟨runStep env3 everyStep (0 + j) sj, ?_, ?_, ?_, ?_⟩
      · rw [heq, List.get?_append_right (by omega), hlen]
        simp
      · rw [runStep_of_error env3 everyStep (0 + j) sj e (by simpa using hfail3)]
      · rw [runStep_of_error env3 everyStep (0 + j) sj e (by simpa using hfail3)]
      · rw [runStep_of_error env3 everyStep (0 + j) sj e (by simpa using hfail3)]
        simp
  exact ⟨main env rfl, main env2 hbody⟩

/-- Witness for C8: the same failing one-step script under a failing and
under a succeeding diagnostic-screenshot oracle; the recorded error is
identical in both runs, only the recorded path differs. -/
theorem run_script_diagnostic_best_effort_witness :
    ((run_script
        ⟨fun _ => Except.error "tap failed", fun _ => none, fun _ => none⟩
        false [{ action := "tap_xy" }]).length = 0 + 1 ∧
      ∃ sr, (run_script
          ⟨fun _ => Except.error "tap failed", fun _ => none, fun _ => none⟩
          false [{ action := "tap_xy" }]).get? 0 = some sr ∧
        sr.success = false ∧ sr.error = some "tap failed" ∧
        sr.screenshot_path = none) ∧
    ((run_script
        ⟨fun _ => Except.error "tap failed", fun _ => some "/tmp/FAIL_1.png",
          fun _ => none⟩
        false [{ action := "tap_xy" }]).length = 0 + 1 ∧
      ∃ sr, (run_script
          ⟨fun _ => Except.error "tap failed", fun _ => some "/tmp/FAIL_1.png",
            fun _ => none⟩
          false [{ action := "tap_xy" }]).get? 0 = some sr ∧
        sr.success = false ∧ sr.error = some "tap failed" ∧
        sr.screenshot_path = some "/tmp/FAIL_1.png") := by
  exact run_script_diagnostic_best_effort
    ⟨fun _ => Except.error "tap failed", fun _ => none, fun _ => none⟩
    ⟨fun _ => Except.error "tap failed", fun _ => some "/tmp/FAIL_1.png",
      fun _ => none⟩
    false [{ action := "tap_xy" }] 0 { action := "tap_xy" } "tap failed"
    rfl rfl (fun x hx => absurd hx (Nat.not_lt_zero x)) rfl

/-! ## Element lookup lemmas -/

/-- Pure Boolean shape of one scan step of `find_element` against the
conjunction-of-provided-predicates matcher. -/
lemma find_step_bool {R : Option UIElement} {x : UIElement} :
    ∀ (a f c l i ieq t teq : Bool),
      (if a && (if f then !c else !l) then R
       else if i && !ieq then R
       else if t && !teq then R
       else some x)
        = (if ((if a then (if f then c else l) else true) &&
                (if i then ieq else true)) && (if t then teq else true)
           then some x else R) := by
  intro a f c l i ieq t teq
  cases a <;> cases f <;> cases c <;> cases l <;> cases i <;> cases ieq <;>
    cases t <;> cases teq <;> rfl

/-!
### Claim C5 (corrected)

The claim states that element-type matches are always exact; the code
lower-cases both sides, so the type predicate is case-insensitive.
-/

/-- Counterexample to C5 as stated: searching for the exact type `Button`
in a list whose only element has type `button` returns that element, while
the claimed exact-type matcher finds nothing — so `find_element` does not
implement exact element-type matching. -/
theorem find_element_type_match_counterexample :
    find_element none none (some "Button") true
        [{ label := "", identifier := "", element_type := "button",
           frame := { x := 0, y := 0, width := 0, height := 0 }, value := "" }]
      = some { label := "", identifier := "", element_type := "button",
               frame := { x := 0, y := 0, width := 0, height := 0 }, value := "" } ∧
    findSpecExactType none none (some "Button") true
        [{ label := "", identifier := "", element_type := "button",
           frame := { x := 0, y := 0, width := 0, height := 0 }, value := "" }]
      = none ∧
    ("button" : String) ≠ "Button" := by
  decide

/-- Claim C5 as amended: `find_element` returns the first element of the
list satisfying all provided predicates under AND semantics — label by
case-insensitive substring containment when fuzzy and exact case-sensitive
equality otherwise, identifier by exact equality, and element type by
case-insensitive (not exact) equality; if no element satisfies all
predicates it returns none. -/
theorem find_element_eq_find_amended (label identifier element_type : Option String)
    (fuzzy : Bool) (elements : List UIElement) :
    find_element label identifier element_type fuzzy elements
      = elements.find? (specMatchesCIType label identifier element_type fuzzy) := by
  induction elements with
  | nil => rfl
  | cons e rest ih =>
    have hstep := find_step_bool
      (R := find_element label identifier element_type fuzzy rest) (x := e)
      (pyTruthy label) fuzzy (lowerContains e.label (label.getD ""))
      (e.label == label.getD "") (pyTruthy identifier)
      (e.identifier == identifier.getD "") (pyTruthy element_type)
      (pyLower e.element_type == pyLower (element_type.getD ""))
    simp only [find_element]
    rw [hstep, ih, List.find?_cons]
    simp only [specMatchesCIType]
    cases hm : ((if pyTruthy label then
        (if fuzzy then lowerContains e.label (label.getD "")
         else e.label == label.getD "") else true) &&
      (if pyTruthy identifier then e.identifier == identifier.getD "" else true)) &&
      (if pyTruthy element_type then
        pyLower e.element_type == pyLower (element_type.getD "") else true) <;>
      simp

/-!
### Claim C9

No criteria: the first element is returned.
-/

/-- Claim C9: calling `find_element` with no label, no identifier and no
element type returns the first element of a non-empty element list — every
element vacuously passes the zero provided predicates. -/
theorem find_element_no_criteria (e : UIElement) (rest : List UIElement)
    (fuzzy : Bool) :
    find_element none none none fuzzy (e :: rest) = some e := by
  simp [find_element, pyTruthy]

/-! ## Element parsing lemmas -/

/-- The inline extraction of a single node (the code's `if frame:` block)
produces exactly the optional element the spec-side `elemOf` assigns to the
node. -/
lemma nodeElement_eq_elemOf (fr rc : Option FrameDict)
    (lb alb idf aidf et tk vl : Option String) (ch el sub : Option JTree) :
    nodeElement fr rc lb alb idf aidf et tk vl
      = (elemOf (JTree.obj fr rc lb alb idf aidf et tk vl ch el sub)).toList := by
  simp only [nodeElement, elemOf]
  cases truthyFrame fr <|> truthyFrame rc with
  | none => rfl
  | some f =>
    by_cases h : firstTruthy lb alb "" ≠ "" ∨ firstTruthy idf aidf "" ≠ ""
    · have h2 : ¬(firstTruthy lb alb "" = "" ∧ firstTruthy idf aidf "" = "") := by
        tauto
      simp [h, h2]
    · have h2 : firstTruthy lb alb "" = "" ∧ firstTruthy idf aidf "" = "" := by
        tauto
      simp [h, h2]

mutual

/-- The parser emits exactly the qualifying nodes of the tree, in
depth-first traversal order. -/
theorem parse_eq_dfs : ∀ (t : JTree),
    _parse_elements t = (dfsNodes t).filterMap elemOf
  | .arr items => by
    simp only [_parse_elements, dfsNodes]
    exact parse_eq_dfs_list items
  | .obj fr rc lb alb idf aidf et tk vl ch el sub => by
    simp only [_parse_elements, dfsNodes, List.filterMap_cons, List.filterMap_append]
    rw [nodeElement_eq_elemOf fr rc lb alb idf aidf et tk vl ch el sub,
      parse_eq_dfs_opt ch, parse_eq_dfs_opt el, parse_eq_dfs_opt sub]
    cases elemOf (JTree.obj fr rc lb alb idf aidf et tk vl ch el sub) <;>
      simp [List.append_assoc]
  | .other => rfl

/-- List version of `parse_eq_dfs`. -/
theorem parse_eq_dfs_list : ∀ (items : List JTree),
    parseListTrees items = (dfsList items).filterMap elemOf
  | [] => rfl
  | t :: ts => by
    simp only [parseListTrees, dfsList, List.filterMap_append]
    rw [parse_eq_dfs t, parse_eq_dfs_list ts]

/-- Optional-child version of `parse_eq_dfs`. -/
theorem parse_eq_dfs_opt : ∀ (o : Option JTree),
    parseOptTree o = (dfsOpt o).filterMap elemOf
  | some t => by
    simp only [parseOptTree, dfsOpt]
    exact parse_eq_dfs t
  | none => rfl

end

/-!
### Claim C6

Depth-first order, inclusion condition and frame normalization of `parse`.
-/

/-- Claim C6: for every tree, the parser returns exactly the elements of
the qualifying nodes (those with a truthy frame and a label or an
identifier) in depth-first traversal order, and the frame of every element
is normalized to flat x/y/width/height fields for both recognized frame
shapes: a flat frame dict yields its own four fields, a nested origin/size
frame dict yields the origin and size components. -/
theorem parse_elements_depth_first_normalized :
    (∀ t : JTree, _parse_elements t = (dfsNodes t).filterMap elemOf) ∧
    (∀ x y w h : Int,
      _normalize_frame
          { fx := some x, fy := some y, fwidth := some w,
            fheight := some h, forigin := none, fsize := none }
        = { x := x, y := y, width := w, height := h }) ∧
    (∀ x y w h : Int,
      _normalize_frame
          { fx := none, fy := none, fwidth := none, fheight := none,
            forigin := some { px := some x, py := some y },
            fsize := some { sw := some w, sh := some h } }
        = { x := x, y := y, width := w, height := h }) := by
  refine ⟨parse_eq_dfs, fun x y w h => rfl, fun x y w h => rfl⟩

end Medusa
